import Mathlib

/-!
Verification of the AI-provider layer of the exploration-engine repository.

The definitions below are shallow embeddings of the TypeScript sources:
* `src/renderer/services/ai/AzureAIProvider.ts` (provider, retry wrapper,
  artifact extraction, response parsing, initialization),
* `src/renderer/services/ai/types.ts` (model-mapping tables and the
  `AIService` failover layer),
* the `executeStage` synthesis-trigger snippet and `createMiniSynthesis`
  from `docs/MINI_SYNTHESIS_INTEGRATION.md`.

JavaScript strings are modelled as Lean `String`/`List Char`; machine
time (`Date.now()`) is passed in explicitly as a `Nat` parameter; thrown
errors become `Except String`; network calls become oracle functions
from the attempt number (or model id) to a result.
-/

/-! ## String helpers (ASCII model of the JS string operations used) -/

/-- Model of JavaScript `\w` (word character): `[A-Za-z0-9_]`. -/
def isWordChar (c : Char) : Bool :=
  c.isAlphanum || c = '_'

/-- Model of JavaScript `String.prototype.trim` on the whitespace
characters that occur in this code base (space, tab, CR, LF). -/
def trimChars (cs : List Char) : List Char :=
  ((cs.dropWhile Char.isWhitespace).reverse.dropWhile Char.isWhitespace).reverse

/-- Model of JavaScript `String.prototype.toLowerCase` for ASCII input
(the only inputs the classification tables compare against). -/
def lowerStr (s : String) : String :=
  String.mk (s.toList.map Char.toLower)

/-- Model of `str.charAt(0).toUpperCase() + str.slice(1)`
(`AzureAIProvider.capitalizeFirst`). -/
def capitalizeFirst (s : String) : String :=
  match s.toList with
  | [] => ""
  | c :: rest => String.mk (c.toUpper :: rest)

/-- Does `l` start with the literal character sequence `pre`? -/
def listStartsWith : List Char → List Char → Bool
  | [], _ => true
  | _ :: _, [] => false
  | a :: as, b :: bs => (a == b) && listStartsWith as bs

/-- Does `l` contain `sub` as a contiguous subsequence?  Models
JavaScript `String.prototype.includes`. -/
def hasSubstring (sub : List Char) : List Char → Bool
  | [] => sub.isEmpty
  | c :: rest => listStartsWith sub (c :: rest) || hasSubstring sub rest

/-! ## Fenced-block scanner

Embeds the regular expression ``/```(\w+)?\n([\s\S]*?)```/g`` used by
`AzureAIProvider.extractArtifacts` (and the textually identical
`AIService.extractArtifacts`): at each position, a match requires three
backticks, then a greedy (maximal) run of word characters as the
optional language tag, then a newline, then a lazy (minimal) body up to
the next three backticks. -/

/-- Split `cs` at the first occurrence of three consecutive backticks:
`splitAtFence cs = some (pre, post)` when `cs = pre ++ "```" ++ post`
and `pre` contains no earlier fence (the lazy `([\s\S]*?)` group). -/
def splitAtFence : List Char → Option (List Char × List Char)
  | [] => none
  | c :: rest =>
    if c = '`' ∧ rest.take 2 = ['`', '`'] then some ([], rest.drop 2)
    else
      match splitAtFence rest with
      | some (pre, post) => some (c :: pre, post)
      | none => none

/-- One attempt of the regex at the head of `cs`: on success returns the
language tag (may be empty for an untagged fence), the raw body, and the
remainder of the input after the closing fence. -/
def fenceMatchAt (cs : List Char) : Option (List Char × List Char × List Char) :=
  match cs with
  | '`' :: '`' :: '`' :: rest =>
    let lang := rest.takeWhile isWordChar
    match rest.dropWhile isWordChar with
    | '\n' :: rest3 =>
      match splitAtFence rest3 with
      | some (content, rest4) => some (lang, content, rest4)
      | none => none
    | _ => none
  | _ => none

/-- Fuel-indexed scanning loop; the fuel only bounds the recursion depth
and is irrelevant once it reaches the input length
(`scanAux_fuel_irrel`). -/
def scanAux : Nat → List Char → List (List Char × List Char)
  | 0, _ => []
  | _ + 1, [] => []
  | fuel + 1, c :: rest =>
    match fenceMatchAt (c :: rest) with
    | some (lang, content, rest4) => (lang, content) :: scanAux fuel rest4
    | none => scanAux fuel rest

/-- All fenced-block matches found by the global regex, left to right,
resuming after each match's closing fence: the list of
`(language tag, raw body)` pairs. -/
def scanFences (cs : List Char) : List (List Char × List Char) :=
  scanAux cs.length cs

/-! ## Artifact classification and extraction -/

inductive ArtifactType where
  | code
  | document
  | visualization
  | data
deriving DecidableEq, Repr

/-- The programming-language tags of both classification tables. -/
def codeLanguages : List String :=
  ["javascript", "typescript", "python", "java", "rust", "go", "cpp", "c",
   "html", "css", "jsx", "tsx", "ruby", "php", "swift", "kotlin", "scala"]

/-- The diagramming tags of both classification tables. -/
def vizLanguages : List String :=
  ["mermaid", "graphviz", "dot", "plantuml"]

/-- The structured-data tags of both classification tables. -/
def dataLanguages : List String :=
  ["json", "yaml", "toml", "xml", "csv"]

/-- Embeds `AzureAIProvider.getArtifactType` (AzureAIProvider.ts lines 461-474). -/
def azureGetArtifactType (language : String) : ArtifactType :=
  let lang := lowerStr language
  if codeLanguages.contains lang then .code
  else if vizLanguages.contains lang then .visualization
  else if dataLanguages.contains lang then .data
  else .document

/-- Embeds `AIService.getArtifactType` (types.ts lines 640-653), textually
identical to the Azure provider's copy. -/
def serviceGetArtifactType (language : String) : ArtifactType :=
  let lang := lowerStr language
  if codeLanguages.contains lang then .code
  else if vizLanguages.contains lang then .visualization
  else if dataLanguages.contains lang then .data
  else .document

/-- An extracted artifact (`Artifact` in types.ts); `language` and
`lineCount` are the two `metadata` entries the extractor writes. -/
structure Artifact where
  id : String
  type : ArtifactType
  title : String
  content : String
  language : String
  lineCount : Nat
  createdAt : Nat
deriving DecidableEq, Repr

/-- The artifact built for one kept block: id `artifact-<now>-<index>`,
type from the classification table, title `<Capitalized lang> Code`,
line count = number of newlines + 1 (JS `code.split('\n').length`). -/
def mkArtifact (now idx : Nat) (language : String) (code : List Char) : Artifact :=
  { id := "artifact-" ++ toString now ++ "-" ++ toString idx
    type := azureGetArtifactType language
    title := capitalizeFirst language ++ " Code"
    content := String.mk code
    language := language
    lineCount := code.count '\n' + 1
    createdAt := now }

/-- The filtering loop body of `extractArtifacts`: an untagged fence gets
language `"text"`; the trimmed body is kept only when strictly longer
than 10 characters; the ordinal `index` advances only on kept blocks. -/
def buildArtifacts (now : Nat) : Nat → List (List Char × List Char) → List Artifact
  | _, [] => []
  | idx, (lang, body) :: rest =>
    let language := if lang.isEmpty then "text" else String.mk lang
    let code := trimChars body
    if 10 < code.length then
      mkArtifact now idx language code :: buildArtifacts now (idx + 1) rest
    else
      buildArtifacts now idx rest

/-- Embeds `AzureAIProvider.extractArtifacts` (AzureAIProvider.ts lines 427-456;
`AIService.extractArtifacts` in types.ts is textually identical).  The
`now` parameter models `Date.now()`. -/
def extractArtifacts (now : Nat) (content : String) : List Artifact :=
  buildArtifacts now 0 (scanFences content.toList)

/-- The identifier-free projection of an artifact: everything except the
generated `id` and `createdAt`. -/
structure ArtifactCore where
  type : ArtifactType
  title : String
  content : String
  language : String
  lineCount : Nat
deriving DecidableEq, Repr

def Artifact.core (a : Artifact) : ArtifactCore :=
  ⟨a.type, a.title, a.content, a.language, a.lineCount⟩

/-! ## Retry wrapper (`AzureAIProvider.executeWithRetry`) -/

def MAX_RETRIES : Nat := 3

def RETRY_DELAY_MS : Nat := 2000

/-- The keyword list of `AzureAIProvider.isRetryableError`. -/
def retryableKeywords : List String :=
  ["network error", "fetch failed", "timeout", "connection reset",
   "socket hang up", "econnreset", "429", "503", "502"]

/-- Embeds `AzureAIProvider.isRetryableError`: the lowercased error message
contains one of the transient keywords. -/
def isRetryableError (msg : String) : Bool :=
  retryableKeywords.any (fun k => hasSubstring k.toList (lowerStr msg).toList)

/-- Outcome of a (possibly retried) provider call: the surfaced result,
the backoff delays that were slept (in ms, in order), and the total
number of attempts made.  The operation is an oracle from the attempt
number to that attempt's outcome. -/
structure RetryTrace (α : Type) where
  result : Except String α
  delays : List Nat
  attempts : Nat
deriving Repr

/-- Recursion skeleton of `executeWithRetry`.  The `fuel` argument only
makes the recursion structural: the retry guard `attempt < MAX_RETRIES`
bounds the depth by `MAX_RETRIES - attempt`, so with `fuel = MAX_RETRIES`
and initial `attempt = 1` the fuel-exhaustion branch is unreachable
(`retryAux_fuel_irrel`). -/
def retryAux (op : Nat → Except String α) : Nat → Nat → RetryTrace α
  | 0, attempt =>
    match op attempt with
    | .ok r => ⟨.ok r, [], attempt⟩
    | .error e => ⟨.error e, [], attempt⟩
  | f + 1, attempt =>
    match op attempt with
    | .ok r => ⟨.ok r, [], attempt⟩
    | .error e =>
      if isRetryableError e && decide (attempt < MAX_RETRIES) then
        let t := retryAux op f (attempt + 1)
        ⟨t.result, RETRY_DELAY_MS * 2 ^ (attempt - 1) :: t.delays, t.attempts⟩
      else ⟨.error e, [], attempt⟩

/-- Embeds `AzureAIProvider.executeWithRetry(operation)` entered at attempt 1
(AzureAIProvider.ts lines 308-327). -/
def executeWithRetry (op : Nat → Except String α) : RetryTrace α :=
  retryAux op MAX_RETRIES 1

/-- The dispatch in `AzureAIProvider.execute` (lines 81-87): the
streaming path goes through `executeWithRetry`, the non-streaming path
calls the provider exactly once with no retry. -/
def azureProviderExecute (stream : Bool) (op : Nat → Except String α) : RetryTrace α :=
  if stream then executeWithRetry op
  else ⟨op 1, [], 1⟩

/-! ## Model-id mapping (types.ts) -/

/-- Embeds `MODEL_MAPPING` (types.ts lines 102-115): key, azure id, anthropic id. -/
def MODEL_MAPPING : List (String × String × String) :=
  [("sonnet", "claude-3-5-sonnet-20241022", "claude-sonnet-4-5-20250929"),
   ("haiku", "claude-3-5-haiku-20241022", "claude-haiku-4-5"),
   ("opus", "claude-3-opus-20240229", "claude-opus-4-20250514")]

/-- The inline table of `AIService.mapModelToAnthropic` (types.ts 579-586). -/
def anthropicModelTable : List (String × String) :=
  [("claude-3-5-sonnet-20241022", "claude-sonnet-4-5-20250929"),
   ("claude-3-5-haiku-20241022", "claude-haiku-4-5"),
   ("claude-3-opus-20240229", "claude-opus-4-20250514")]

/-- The inline table of `AIService.mapModelToAzure` (types.ts 591-598). -/
def azureModelTable : List (String × String) :=
  [("claude-sonnet-4-5-20250929", "claude-3-5-sonnet-20241022"),
   ("claude-haiku-4-5", "claude-3-5-haiku-20241022"),
   ("claude-opus-4-20250514", "claude-3-opus-20240229")]

/-- Embeds `AIService.mapModelToAnthropic`: `mapping[model] || model`. -/
def mapModelToAnthropic (m : String) : String :=
  (anthropicModelTable.lookup m).getD m

/-- Embeds `AIService.mapModelToAzure`: `mapping[model] || model`. -/
def mapModelToAzure (m : String) : String :=
  (azureModelTable.lookup m).getD m

/-! ## Service initialization and one-shot failover (`AIService`) -/

inductive ProviderId where
  | azure
  | anthropic
deriving DecidableEq, Repr

structure AzureAIConfig where
  endpoint : String
  apiKey : String
  apiVersion : Option String
deriving DecidableEq, Repr

structure AnthropicConfig where
  apiKey : String
deriving DecidableEq, Repr

structure AIConfig where
  provider : ProviderId
  azure : Option AzureAIConfig
  anthropic : Option AnthropicConfig
deriving DecidableEq, Repr

/-- Model of `config.endpoint.replace(/\/$/, '')`: drop one trailing
slash if present. -/
def stripTrailingSlash (s : String) : String :=
  match s.toList.reverse with
  | '/' :: rest => String.mk rest.reverse
  | _ => s

/-- The provider configuration retained by a successfully initialized
`AzureAIProvider`. -/
structure AzureProviderState where
  endpoint : String
  apiKey : String
  apiVersion : String
deriving DecidableEq, Repr

/-- Embeds `AzureAIProvider.initialize` (AzureAIProvider.ts lines 25-38): throws
when endpoint or API key is missing (falsy, i.e. the empty string);
otherwise stores the config with the trailing slash stripped and the
`apiVersion` defaulted (`config.apiVersion || '2024-05-01-preview'`). -/
def azureProviderInit (cfg : AzureAIConfig) : Except String AzureProviderState :=
  if cfg.endpoint = "" ∨ cfg.apiKey = "" then
    .error "Azure AI endpoint and API key are required"
  else
    .ok { endpoint := stripTrailingSlash cfg.endpoint
          apiKey := cfg.apiKey
          apiVersion :=
            match cfg.apiVersion with
            | some v => if v = "" then "2024-05-01-preview" else v
            | none => "2024-05-01-preview" }

/-- The flags `AIService` holds after `initialize`: `azureReady` models a
successfully initialized `azureProvider`, `anthropicReady` a constructed
`anthropicClient`. -/
structure ServiceState where
  isInit : Bool
  activeProvider : ProviderId
  azureReady : Bool
  anthropicReady : Bool
deriving DecidableEq, Repr

/-- Embeds `AIService.initialize` (types.ts lines 232-257).  It has no throw
path — hence the unconditional `.ok`: each provider is initialized only
behind a truthiness guard on its credentials (`config.azure?.endpoint &&
config.azure?.apiKey`, `config.anthropic?.apiKey`), which also makes the
throw inside `AzureAIProvider.initialize` unreachable from here; a
provider with missing credentials is silently left unconfigured and
`isInitialized` is set to `true` regardless. -/
def serviceInit (cfg : AIConfig) : Except String ServiceState :=
  .ok { isInit := true
        activeProvider := cfg.provider
        azureReady :=
          match cfg.azure with
          | some a => a.endpoint != "" && a.apiKey != ""
          | none => false
        anthropicReady :=
          match cfg.anthropic with
          | some a => a.apiKey != ""
          | none => false }

/-- The initialization guard at the top of `AzureAIProvider.execute` /
`executeWithAzure`: an unconfigured provider throws. -/
def azureCall (st : ServiceState) (oracle : String → Except String α)
    (model : String) : Except String α :=
  if st.azureReady then oracle model
  else .error "Azure AI provider not initialized"

/-- The guard at the top of `AIService.executeWithAnthropic`. -/
def anthropicCall (st : ServiceState) (oracle : String → Except String α)
    (model : String) : Except String α :=
  if st.anthropicReady then oracle model
  else .error "Anthropic client not initialized"

/-- Embeds `AIService.execute` (types.ts lines 312-345): try the active
provider; on failure, if the other provider is configured, make exactly
one call against it with the model id translated; if that also fails
rethrow the original error.  Each provider is an oracle from the model
id it is invoked with to its outcome; the second component records the
provider invocations `(provider, model id)` in order.  (`mapModel` in
the source is the identity, so the primary call uses the request's model
id unchanged.) -/
def serviceExecute (st : ServiceState) (model : String)
    (azureOracle anthropicOracle : String → Except String α) :
    Except String α × List (ProviderId × String) :=
  if st.isInit = false then
    (.error "AI Service not initialized. Call initialize() first.", [])
  else
    match st.activeProvider with
    | .azure =>
      match azureCall st azureOracle model with
      | .ok r => (.ok r, [(.azure, model)])
      | .error e =>
        if st.anthropicReady then
          let m2 := mapModelToAnthropic model
          match anthropicCall st anthropicOracle m2 with
          | .ok r => (.ok r, [(.azure, model), (.anthropic, m2)])
          | .error _ => (.error e, [(.azure, model), (.anthropic, m2)])
        else (.error e, [(.azure, model)])
    | .anthropic =>
      match anthropicCall st anthropicOracle model with
      | .ok r => (.ok r, [(.anthropic, model)])
      | .error e =>
        if st.azureReady then
          let m2 := mapModelToAzure model
          match azureCall st azureOracle m2 with
          | .ok r => (.ok r, [(.anthropic, model), (.azure, m2)])
          | .error _ => (.error e, [(.anthropic, model), (.azure, m2)])
        else (.error e, [(.anthropic, model)])

/-! ## Non-streaming response handling (`AzureAIProvider`) -/

/-- One entry of `choices[0].message.tool_calls`; `argsObj = none` models
a `function.arguments` string on which `JSON.parse` throws (the loop
skips such entries). -/
structure RawToolCall where
  name : String
  argsObj : Option (List (String × String))
deriving DecidableEq, Repr

structure RawMessage where
  content : Option String
  tool_calls : Option (List RawToolCall)
deriving DecidableEq, Repr

structure RawChoice where
  message : Option RawMessage
deriving DecidableEq, Repr

structure RawUsage where
  prompt_tokens : Option Nat
  completion_tokens : Option Nat
deriving DecidableEq, Repr

/-- The shape `AzureAIProvider.parseResponse` reads from the decoded
JSON body; every field access in the source is optional-chained, hence
the `Option`s. -/
structure RawResponse where
  choices : List RawChoice
  usage : Option RawUsage
deriving DecidableEq, Repr

structure ToolUse where
  type : String
  input : List (String × String)
deriving DecidableEq, Repr

/-- The provider response record (`AIResponse` in types.ts, minus the
streaming-only `thinking` field, which the non-streaming parser never
sets). -/
structure AIResponseM where
  content : String
  artifacts : List Artifact
  toolUses : Option (List ToolUse)
  inputTokens : Nat
  outputTokens : Nat
  provider : ProviderId
  model : String
deriving DecidableEq, Repr

/-- Embeds `AzureAIProvider.parseResponse` (AzureAIProvider.ts lines 376-422):
`content = response.choices?.[0]?.message?.content || ''` — a missing
field silently becomes the empty string, no error is raised; malformed
tool calls are skipped; missing usage counts default to 0.  `now` models
`Date.now()` for the artifact ids. -/
def parseResponse (now : Nat) (data : RawResponse) (model : String) : AIResponseM :=
  let msg := data.choices.head?.bind (·.message)
  let content := (msg.bind (·.content)).getD ""
  let toolCalls := (msg.bind (·.tool_calls)).getD []
  let toolUses := toolCalls.filterMap (fun t => t.argsObj.map (fun a => ToolUse.mk t.name a))
  { content := content
    artifacts := extractArtifacts now content
    toolUses := if toolUses.length > 0 then some toolUses else none
    inputTokens := (data.usage.bind (·.prompt_tokens)).getD 0
    outputTokens := (data.usage.bind (·.completion_tokens)).getD 0
    provider := .azure
    model := model }

/-- The HTTP response seen by `executeNonStreaming`: `jsonBody = none`
models a body on which `response.json()` throws. -/
structure HttpResp where
  ok : Bool
  status : Nat
  bodyText : String
  jsonBody : Option RawResponse
deriving DecidableEq, Repr

/-- Embeds `AzureAIProvider.executeNonStreaming` (AzureAIProvider.ts lines
156-182): a non-OK response throws `Azure AI error: <status> - <body>`;
an unparseable JSON body propagates the `response.json()` exception
(modelled with the standard `Unexpected end of JSON input` message);
otherwise the parsed body is handed to `parseResponse`. -/
def executeNonStreaming (now : Nat) (model : String) (resp : HttpResp) :
    Except String AIResponseM :=
  if resp.ok = false then
    .error ("Azure AI error: " ++ toString resp.status ++ " - " ++ resp.bodyText)
  else
    match resp.jsonBody with
    | none => .error "Unexpected end of JSON input"
    | some d => .ok (parseResponse now d model)

/-! ## Synthesis trigger (docs/MINI_SYNTHESIS_INTEGRATION.md) -/

inductive StageStatus where
  | pending
  | running
  | complete
  | failed
deriving DecidableEq, Repr

/-- The synthesis trigger added to `executeStage`
(MINI_SYNTHESIS_INTEGRATION.md lines 161-176): fire exactly when
mini-synthesis is enabled, the just-completed stage is not a summary
stage, its status is `complete`, and the completed-stage count is a
multiple of `synthesisInterval` that has reached `synthesisInterval`. -/
def shouldSynthesize (enableMiniSynthesis isSummary : Bool) (status : StageStatus)
    (stageCount synthesisInterval : Nat) : Bool :=
  enableMiniSynthesis && !isSummary && (status == .complete) &&
    (stageCount % synthesisInterval == 0) && decide (synthesisInterval ≤ stageCount)

/-! ## Concrete inputs used by witnesses and counterexamples -/

/-- An operation that fails every attempt with a transient HTTP 503 error. -/
def always503 : Nat → Except String Unit :=
  fun _ => .error "Azure AI error: 503 - Service Unavailable"

/-- An operation with a transient failure on attempt 1 and success on
every later attempt. -/
def retryDemoOp : Nat → Except String Nat :=
  fun n => if n = 1 then .error "timeout" else .ok 42

/-- A provider oracle that fails on every model id. -/
def failingOracle : String → Except String Nat :=
  fun _ => .error "boom"

/-- A provider oracle that succeeds on every model id. -/
def okOracle : String → Except String Nat :=
  fun _ => .ok 7

/-- A service configuration selecting azure as primary whose azure
credentials are incomplete (empty endpoint) and with no fallback. -/
def cfgBadAzure : AIConfig :=
  { provider := .azure, azure := some ⟨"", "key", none⟩, anthropic := none }

/-- A decoded completion body missing every required field (`{}`). -/
def rawEmptyResponse : RawResponse :=
  { choices := [], usage := none }

/-- An HTTP 200 response whose JSON body parses but carries none of the
required completion fields. -/
def okMalformedResp : HttpResp :=
  { ok := true, status := 200, bodyText := "", jsonBody := some rawEmptyResponse }

/-! ## Supporting lemmas -/

theorem splitAtFence_post_lt :
    ∀ cs pre post, splitAtFence cs = some (pre, post) → post.length < cs.length := by
  intro cs
  induction cs with
  | nil => intro pre post h; simp [splitAtFence] at h
  | cons c rest ih =>
    intro pre post h
    simp only [splitAtFence] at h
    split at h
    · simp only [Option.some.injEq, Prod.mk.injEq] at h
      have : post.length ≤ rest.length := by
        rw [← h.2]
        calc (rest.drop 2).length = rest.length - 2 := by simp
          _ ≤ rest.length := Nat.sub_le _ _
      simpa using Nat.lt_succ_of_le this
    · cases hrec : splitAtFence rest with
      | none => rw [hrec] at h; simp at h
      | some p =>
        rw [hrec] at h
        simp only [Option.some.injEq, Prod.mk.injEq] at h
        have := ih p.1 p.2 (by rw [hrec])
        have hp : p.2 = post := by rw [← h.2]
        rw [hp] at this
        simpa using Nat.lt_succ_of_lt this

theorem fenceMatchAt_rest_lt :
    ∀ cs lang content rest, fenceMatchAt cs = some (lang, content, rest) →
      rest.length < cs.length := by
  intro cs lang content rest h
  simp only [fenceMatchAt] at h
  split at h
  case h_2 => exact absurd h (by simp)
  case h_1 tl =>
    split at h
    case h_2 => exact absurd h (by simp)
    case h_1 rest3 heq =>
      cases hsplit : splitAtFence rest3 with
      | none => rw [hsplit] at h; simp at h
      | some p =>
        rw [hsplit] at h
        simp only [Option.some.injEq, Prod.mk.injEq] at h
        have h1 : p.2.length < rest3.length :=
          splitAtFence_post_lt rest3 p.1 p.2 (by rw [hsplit])
        have h2 : rest3.length + 1 ≤ tl.length := by
          have hle : ('\n' :: rest3 : List Char).length ≤ tl.length := by
            rw [← heq]; exact (List.dropWhile_sublist _).length_le
          simpa using hle
        have hr : rest = p.2 := h.2.2.symm
        rw [hr]
        simp only [List.length_cons]
        omega

theorem scanAux_fuel_irrel :
    ∀ f1 : Nat, ∀ cs : List Char, ∀ f2 : Nat,
      cs.length ≤ f1 → cs.length ≤ f2 → scanAux f1 cs = scanAux f2 cs := by
  intro f1
  induction f1 with
  | zero =>
    intro cs f2 h1 _
    have hnil : cs = [] := List.length_eq_zero.mp (Nat.le_zero.mp h1)
    subst hnil
    cases f2 <;> simp [scanAux]
  | succ f ih =>
    intro cs f2 h1 h2
    cases cs with
    | nil => cases f2 <;> simp [scanAux]
    | cons c rest =>
      cases f2 with
      | zero => simp at h2
      | succ g =>
        cases hm : fenceMatchAt (c :: rest) with
        | some p =>
          obtain ⟨lang, content, rest4⟩ := p
          have hlt := fenceMatchAt_rest_lt _ _ _ _ hm
          simp only [scanAux, hm]
          simp only [List.length_cons] at h1 h2 hlt
          rw [ih rest4 g (by omega) (by omega)]
        | none =>
          simp only [scanAux, hm]
          simp only [List.length_cons] at h1 h2
          exact ih rest g (by omega) (by omega)

theorem scanFences_cons_some {c : Char} {rest lang content rest4 : List Char}
    (hm : fenceMatchAt (c :: rest) = some (lang, content, rest4)) :
    scanFences (c :: rest) = (lang, content) :: scanFences rest4 := by
  have hlt := fenceMatchAt_rest_lt _ _ _ _ hm
  simp only [List.length_cons] at hlt
  simp only [scanFences, List.length_cons, scanAux, hm]
  rw [scanAux_fuel_irrel rest.length rest4 rest4.length (by omega) (by omega)]

theorem scanFences_cons_none {c : Char} {rest : List Char}
    (hm : fenceMatchAt (c :: rest) = none) :
    scanFences (c :: rest) = scanFences rest := by
  simp only [scanFences, List.length_cons, scanAux, hm]

theorem retryAux_fuel_irrel (op : Nat → Except String α) :
    ∀ f1 f2 attempt, MAX_RETRIES ≤ attempt + f1 → MAX_RETRIES ≤ attempt + f2 →
      retryAux op f1 attempt = retryAux op f2 attempt := by
  intro f1
  induction f1 with
  | zero =>
    intro f2 attempt h1 h2
    have hnr : ¬ attempt < MAX_RETRIES := by omega
    cases f2 with
    | zero => rfl
    | succ g =>
      simp only [retryAux]
      cases op attempt with
      | ok r => rfl
      | error e => simp [hnr]
  | succ f ih =>
    intro f2 attempt h1 h2
    cases f2 with
    | zero =>
      have hnr : ¬ attempt < MAX_RETRIES := by omega
      simp only [retryAux]
      cases op attempt with
      | ok r => rfl
      | error e => simp [hnr]
    | succ g =>
      simp only [retryAux]
      cases op attempt with
      | ok r => rfl
      | error e =>
        by_cases hr : (isRetryableError e && decide (attempt < MAX_RETRIES)) = true
        · simp only [hr, if_true]
          rw [ih g (attempt + 1) (by omega) (by omega)]
        · simp only [Bool.not_eq_true] at hr
          simp [hr]

theorem takeWhile_word_tag (tag : List Char) (l : List Char)
    (h : ∀ c ∈ tag, isWordChar c = true) :
    (tag ++ '\n' :: l).takeWhile isWordChar = tag ∧
    (tag ++ '\n' :: l).dropWhile isWordChar = '\n' :: l := by
  induction tag with
  | nil =>
    constructor
    · simp [List.takeWhile_cons, isWordChar]
    · simp [List.dropWhile_cons, isWordChar]
  | cons c rest ih =>
    have hc : isWordChar c = true := h c (by simp)
    have hrest : ∀ x ∈ rest, isWordChar x = true := fun x hx => h x (by simp [hx])
    obtain ⟨h1, h2⟩ := ih hrest
    constructor
    · simp [List.takeWhile_cons, hc, h1]
    · simp [List.dropWhile_cons, hc, h2]

theorem fenceMatchAt_fence (tag body : List Char)
    (htag : ∀ c ∈ tag, isWordChar c = true)
    (hbody : splitAtFence (body ++ ['`', '`', '`']) = some (body, [])) :
    fenceMatchAt ('`' :: '`' :: '`' :: (tag ++ '\n' :: (body ++ ['`', '`', '`'])))
      = some (tag, body, []) := by
  have htake := (takeWhile_word_tag tag (body ++ ['`', '`', '`']) htag).1
  have hdrop := (takeWhile_word_tag tag (body ++ ['`', '`', '`']) htag).2
  simp only [fenceMatchAt, htake, hdrop, hbody]

theorem scanFences_single (tag body : List Char)
    (htag : ∀ c ∈ tag, isWordChar c = true)
    (hbody : splitAtFence (body ++ ['`', '`', '`']) = some (body, [])) :
    scanFences ('`' :: '`' :: '`' :: (tag ++ '\n' :: (body ++ ['`', '`', '`'])))
      = [(tag, body)] := by
  rw [scanFences_cons_some (fenceMatchAt_fence tag body htag hbody)]
  rfl

/-! ## Claim theorems -/

/-- C5: after a stage completes (status `complete`, mini-synthesis
enabled), a synthesis is generated exactly when the completed-stage
count is a positive multiple of `synthesisInterval` — equivalently
`stageCount % synthesisInterval = 0` and `stageCount ≥ synthesisInterval`
— and the just-completed stage was not a terminal summary stage; in
every other case (count not a multiple, count below the interval, or a
summary stage) no synthesis is generated. -/
theorem c5_synthesis_trigger (stageCount synthesisInterval : Nat) (isSummary : Bool)
    (hpos : 0 < synthesisInterval) :
    shouldSynthesize true isSummary .complete stageCount synthesisInterval = true ↔
      ((∃ k, 0 < k ∧ stageCount = k * synthesisInterval) ∧
        synthesisInterval ≤ stageCount ∧ isSummary = false) := by
  simp only [shouldSynthesize, Bool.true_and, Bool.and_eq_true, Bool.not_eq_true',
    beq_iff_eq, decide_eq_true_eq, and_true]
  constructor
  · rintro ⟨⟨hsum, hmod⟩, hle⟩
    obtain ⟨k, hk⟩ := Nat.dvd_of_mod_eq_zero hmod
    refine ⟨⟨k, ?_, by rw [hk, Nat.mul_comm]⟩, hle, hsum⟩
    rcases Nat.eq_zero_or_pos k with h0 | h1
    · subst h0; simp at hk; omega
    · exact h1
  · rintro ⟨⟨k, hk, hck⟩, hle, hsum⟩
    refine ⟨⟨hsum, ?_⟩, hle⟩
    subst hck
    exact Nat.mul_mod_left k synthesisInterval

/-- C5 witness: with interval 3 and 6 completed stages (a non-summary
complete stage) the synthesis trigger fires. -/
theorem c5_witness : shouldSynthesize true false .complete 6 3 = true :=
  (c5_synthesis_trigger 6 3 false (by decide)).mpr
    ⟨⟨2, by decide, by decide⟩, by decide, rfl⟩

/-- C7: model-id translation is a fixed bidirectional mapping: for each
of the three mapped pairs, translating an Azure id to Anthropic and back
returns the original id and symmetrically for Anthropic ids; the two
per-direction tables agree with `MODEL_MAPPING`; and any model id with
no mapping entry passes through either translation — and hence both
compositions — unchanged. -/
theorem c7_model_mapping :
    (mapModelToAzure (mapModelToAnthropic "claude-3-5-sonnet-20241022")
        = "claude-3-5-sonnet-20241022"
      ∧ mapModelToAzure (mapModelToAnthropic "claude-3-5-haiku-20241022")
        = "claude-3-5-haiku-20241022"
      ∧ mapModelToAzure (mapModelToAnthropic "claude-3-opus-20240229")
        = "claude-3-opus-20240229"
      ∧ mapModelToAnthropic (mapModelToAzure "claude-sonnet-4-5-20250929")
        = "claude-sonnet-4-5-20250929"
      ∧ mapModelToAnthropic (mapModelToAzure "claude-haiku-4-5")
        = "claude-haiku-4-5"
      ∧ mapModelToAnthropic (mapModelToAzure "claude-opus-4-20250514")
        = "claude-opus-4-20250514")
    ∧ (MODEL_MAPPING.all (fun kv =>
        (mapModelToAnthropic kv.2.1 == kv.2.2) && (mapModelToAzure kv.2.2 == kv.2.1)) = true)
    ∧ (∀ m, anthropicModelTable.lookup m = none → mapModelToAnthropic m = m)
    ∧ (∀ m, azureModelTable.lookup m = none → mapModelToAzure m = m)
    ∧ (∀ m, anthropicModelTable.lookup m = none → azureModelTable.lookup m = none →
        mapModelToAzure (mapModelToAnthropic m) = m
          ∧ mapModelToAnthropic (mapModelToAzure m) = m) := by
  refine ⟨by decide, by decide, ?_, ?_, ?_⟩
  · intro m h; simp [mapModelToAnthropic, h]
  · intro m h; simp [mapModelToAzure, h]
  · intro m h1 h2
    constructor
    · simp [mapModelToAnthropic, mapModelToAzure, h1, h2]
    · simp [mapModelToAnthropic, mapModelToAzure, h1, h2]

/-- C7 witness: the unmapped id `gpt-4o` passes through both
translations unchanged. -/
theorem c7_witness :
    mapModelToAzure (mapModelToAnthropic "gpt-4o") = "gpt-4o"
      ∧ mapModelToAnthropic (mapModelToAzure "gpt-4o") = "gpt-4o" :=
  c7_model_mapping.2.2.2.2 "gpt-4o" (by decide) (by decide)

/-- C4: the artifact-type classification maps the 17 known
programming-language tags to `code`, the 4 diagramming tags to
`visualization`, the 5 structured-data tags to `data`, and every other
tag to `document`; it is case-insensitive (two tags with the same
lowercasing classify identically) and the two provider implementations
classify identically on every input. -/
theorem c4_artifact_type_classification :
    (∀ s, azureGetArtifactType s = serviceGetArtifactType s)
    ∧ (∀ s t, lowerStr s = lowerStr t → azureGetArtifactType s = azureGetArtifactType t)
    ∧ (codeLanguages.all (fun tag => azureGetArtifactType tag == .code) = true)
    ∧ (vizLanguages.all (fun tag => azureGetArtifactType tag == .visualization) = true)
    ∧ (dataLanguages.all (fun tag => azureGetArtifactType tag == .data) = true)
    ∧ (∀ s, lowerStr s ∉ codeLanguages → lowerStr s ∉ vizLanguages →
        lowerStr s ∉ dataLanguages → azureGetArtifactType s = .document) := by
  refine ⟨fun s => rfl, ?_, by decide, by decide, by decide, ?_⟩
  · intro s t h
    simp only [azureGetArtifactType]
    rw [h]
  · intro s h1 h2 h3
    simp [azureGetArtifactType, h1, h2, h3]

/-- C4 witness: `PYTHON` classifies like `python` (case-insensitivity at
a concrete pair) and the unknown tag `foo` classifies as `document`. -/
theorem c4_witness :
    azureGetArtifactType "PYTHON" = azureGetArtifactType "python"
      ∧ azureGetArtifactType "foo" = .document :=
  ⟨c4_artifact_type_classification.2.1 "PYTHON" "python" (by decide),
   c4_artifact_type_classification.2.2.2.2.2 "foo" (by decide) (by decide) (by decide)⟩

/-- The identifier-free view of one built artifact does not depend on
the clock value or the starting ordinal. -/
theorem buildArtifacts_map_core (l : List (List Char × List Char)) :
    ∀ idx1 idx2 t1 t2,
      (buildArtifacts t1 idx1 l).map Artifact.core
        = (buildArtifacts t2 idx2 l).map Artifact.core := by
  induction l with
  | nil => intro _ _ _ _; rfl
  | cons p rest ih =>
    intro idx1 idx2 t1 t2
    obtain ⟨lang, body⟩ := p
    by_cases hc : 10 < (trimChars body).length
    · simp only [buildArtifacts, if_pos hc, List.map_cons]
      rw [ih (idx1 + 1) (idx2 + 1) t1 t2]
      rfl
    · simp only [buildArtifacts, if_neg hc]
      exact ih idx1 idx2 t1 t2

/-- C8: running the extractor twice on the same text — modelled as two
runs at arbitrary clock values, since `Date.now()` is the only
non-deterministic input — yields the same number of artifacts with
pairwise equal type, title, content, and metadata (language and line
count); only the generated `id`/`createdAt` may differ. -/
theorem c8_extraction_deterministic (t1 t2 : Nat) (text : String) :
    (extractArtifacts t1 text).map Artifact.core
        = (extractArtifacts t2 text).map Artifact.core
      ∧ (extractArtifacts t1 text).length = (extractArtifacts t2 text).length := by
  have h := buildArtifacts_map_core (scanFences text.toList) 0 0 t1 t2
  refine ⟨h, ?_⟩
  have := congrArg List.length h
  simpa using this

/-- Extraction of a text consisting of exactly one fenced block: kept
with the tag-derived language exactly when the trimmed body is strictly
longer than 10 characters. -/
theorem extractArtifacts_single (now : Nat) (tag body : List Char)
    (htag : ∀ c ∈ tag, isWordChar c = true)
    (hbody : splitAtFence (body ++ ['`', '`', '`']) = some (body, [])) :
    extractArtifacts now
        (String.mk ('`' :: '`' :: '`' :: (tag ++ '\n' :: (body ++ ['`', '`', '`']))))
      = if 10 < (trimChars body).length then
          [mkArtifact now 0 (if tag.isEmpty then "text" else String.mk tag) (trimChars body)]
        else [] := by
  have h0 : (String.mk ('`' :: '`' :: '`' :: (tag ++ '\n' :: (body ++ ['`', '`', '`'])))).toList
      = '`' :: '`' :: '`' :: (tag ++ '\n' :: (body ++ ['`', '`', '`'])) := rfl
  unfold extractArtifacts
  rw [h0, scanFences_single tag body htag hbody]
  by_cases hc : 10 < (trimChars body).length
  · simp only [buildArtifacts, if_pos hc]
  · simp only [buildArtifacts, if_neg hc]

/-- C10: a fenced block carrying no language tag at all is not skipped:
when its trimmed content exceeds the 10-character threshold it is
extracted, with metadata language `text`, artifact type `document`, and
title `Text Code`. -/
theorem c10_untagged_fence (now : Nat) (body : List Char)
    (hbody : splitAtFence (body ++ ['`', '`', '`']) = some (body, []))
    (hlen : 10 < (trimChars body).length) :
    extractArtifacts now (String.mk ('`' :: '`' :: '`' :: '\n' :: (body ++ ['`', '`', '`'])))
        = [mkArtifact now 0 "text" (trimChars body)]
      ∧ (mkArtifact now 0 "text" (trimChars body)).language = "text"
      ∧ (mkArtifact now 0 "text" (trimChars body)).type = .document
      ∧ (mkArtifact now 0 "text" (trimChars body)).title = "Text Code" := by
  have h := extractArtifacts_single now [] body (by simp) hbody
  rw [if_pos hlen] at h
  exact ⟨h, rfl, rfl, rfl⟩

/-- C10 witness: a 20-character untagged fence is extracted as a `text`
document. -/
theorem c10_witness :
    extractArtifacts 3
        (String.mk ('`' :: '`' :: '`' :: '\n'
          :: ("hello world artifact".toList ++ ['`', '`', '`'])))
      = [mkArtifact 3 0 "text" (trimChars "hello world artifact".toList)] :=
  (c10_untagged_fence 3 "hello world artifact".toList (by decide) (by decide)).1

/-- C3 counterexample: a fenced block whose trimmed content is exactly
10 characters long — not shorter than the 10-character threshold, so by
the claim it should be kept — is discarded (the code keeps only blocks
strictly longer than 10). -/
theorem c3_counterexample :
    (trimChars "0123456789".toList).length = 10
      ∧ extractArtifacts 0 "```python\n0123456789```" = [] := by
  constructor
  · decide
  · decide

/-- C3 amended: extraction discards exactly the fenced blocks whose
trimmed content is 10 characters or shorter, and keeps those strictly
longer than 10; in particular the two-block text with a 40-character
`python` block and a 5-character `json` block yields exactly one
artifact, of type `code`. -/
theorem c3_length_threshold :
    (∀ now tag body, (∀ c ∈ tag, isWordChar c = true) →
      splitAtFence (body ++ ['`', '`', '`']) = some (body, []) →
      ((10 < (trimChars body).length →
          extractArtifacts now
              (String.mk ('`' :: '`' :: '`' :: (tag ++ '\n' :: (body ++ ['`', '`', '`']))))
            = [mkArtifact now 0 (if tag.isEmpty then "text" else String.mk tag)
                (trimChars body)])
        ∧ ((trimChars body).length ≤ 10 →
          extractArtifacts now
              (String.mk ('`' :: '`' :: '`' :: (tag ++ '\n' :: (body ++ ['`', '`', '`']))))
            = [])))
    ∧ extractArtifacts 0
        "```python\n0123456789012345678901234567890123456789```\n\n```json\n12345```"
        = [mkArtifact 0 0 "python" "0123456789012345678901234567890123456789".toList]
    ∧ (mkArtifact 0 0 "python" "0123456789012345678901234567890123456789".toList).type
        = .code := by
  refine ⟨?_, by decide, rfl⟩
  intro now tag body htag hbody
  have h := extractArtifacts_single now tag body htag hbody
  constructor
  · intro hlen
    rw [if_pos hlen] at h
    exact h
  · intro hlen
    rw [if_neg (by omega)] at h
    exact h

/-- C3 witness: a 5-character `json` block alone is discarded. -/
theorem c3_witness :
    extractArtifacts 1
        (String.mk ('`' :: '`' :: '`'
          :: ("json".toList ++ '\n' :: ("12345".toList ++ ['`', '`', '`']))))
      = [] :=
  (c3_length_threshold.1 1 "json".toList "12345".toList (by decide) (by decide)).2
    (by decide)

theorem retryAux_ok {α : Type} (op : Nat → Except String α) (f attempt : Nat) (r : α)
    (h : op attempt = .ok r) : retryAux op f attempt = ⟨.ok r, [], attempt⟩ := by
  cases f <;> simp [retryAux, h]

theorem retryAux_stop {α : Type} (op : Nat → Except String α) (f attempt : Nat) (e : String)
    (h : op attempt = .error e)
    (hc : (isRetryableError e && decide (attempt < MAX_RETRIES)) = false) :
    retryAux op f attempt = ⟨.error e, [], attempt⟩ := by
  cases f <;> simp [retryAux, h, hc]

theorem retryAux_step {α : Type} (op : Nat → Except String α) (f attempt : Nat) (e : String)
    (h : op attempt = .error e)
    (hc : (isRetryableError e && decide (attempt < MAX_RETRIES)) = true) :
    retryAux op (f + 1) attempt =
      ⟨(retryAux op f (attempt + 1)).result,
       RETRY_DELAY_MS * 2 ^ (attempt - 1) :: (retryAux op f (attempt + 1)).delays,
       (retryAux op f (attempt + 1)).attempts⟩ := by
  simp [retryAux, h, hc]

/-- C1 amended: the exponential-backoff retry policy — base delay
2000 ms doubling each attempt, ceiling of MAX_RETRIES = 3 attempts,
non-transient errors surfaced immediately, retries invisible to the
caller unless exhausted, the last error surfaced after the ceiling —
applies to the STREAMING path of `execute` only; a non-streaming call is
made exactly once and any error, transient or not, is surfaced
immediately with no backoff. -/
theorem c1_retry_streaming_only {α : Type} (op : Nat → Except String α) :
    (∀ e, op 1 = .error e → isRetryableError e = false →
        azureProviderExecute true op = ⟨.error e, [], 1⟩)
    ∧ (∀ e₁ r, op 1 = .error e₁ → isRetryableError e₁ = true → op 2 = .ok r →
        azureProviderExecute true op = ⟨.ok r, [2000], 2⟩)
    ∧ (∀ e₁ e₂ r, op 1 = .error e₁ → isRetryableError e₁ = true →
        op 2 = .error e₂ → isRetryableError e₂ = true → op 3 = .ok r →
        azureProviderExecute true op = ⟨.ok r, [2000, 4000], 3⟩)
    ∧ (∀ e₁ e₂ e₃, op 1 = .error e₁ → isRetryableError e₁ = true →
        op 2 = .error e₂ → isRetryableError e₂ = true → op 3 = .error e₃ →
        azureProviderExecute true op = ⟨.error e₃, [2000, 4000], 3⟩)
    ∧ azureProviderExecute false op = ⟨op 1, [], 1⟩ := by
  have hexec : azureProviderExecute true op = retryAux op 3 1 := rfl
  refine ⟨?_, ?_, ?_, ?_, rfl⟩
  · intro e h1 hr
    rw [hexec, retryAux_stop op 3 1 e h1 (by simp [hr])]
  · intro e₁ r h1 hr1 h2
    rw [hexec, retryAux_step op 2 1 e₁ h1 (by simp [hr1, MAX_RETRIES]),
      retryAux_ok op 2 2 r h2]
    simp [RETRY_DELAY_MS]
  · intro e₁ e₂ r h1 hr1 h2 hr2 h3
    rw [hexec, retryAux_step op 2 1 e₁ h1 (by simp [hr1, MAX_RETRIES]),
      retryAux_step op 1 2 e₂ h2 (by simp [hr2, MAX_RETRIES]),
      retryAux_ok op 1 3 r h3]
    simp [RETRY_DELAY_MS]
  · intro e₁ e₂ e₃ h1 hr1 h2 hr2 h3
    rw [hexec, retryAux_step op 2 1 e₁ h1 (by simp [hr1, MAX_RETRIES]),
      retryAux_step op 1 2 e₂ h2 (by simp [hr2, MAX_RETRIES]),
      retryAux_stop op 1 3 e₃ h3 (by simp [MAX_RETRIES])]
    simp [RETRY_DELAY_MS]

/-- C1 counterexample: a transient HTTP 503 failure on the NON-streaming
path is not retried — one attempt, no backoff delay, the error surfaced
immediately — contradicting the claim that the backoff retry policy
holds for both streaming and non-streaming execution. -/
theorem c1_counterexample :
    isRetryableError "Azure AI error: 503 - Service Unavailable" = true
      ∧ (azureProviderExecute false always503).attempts = 1
      ∧ (azureProviderExecute false always503).delays = []
      ∧ (azureProviderExecute false always503).result
          = .error "Azure AI error: 503 - Service Unavailable" := by
  refine ⟨by decide, rfl, rfl, rfl⟩

/-- C1 witness: a transient failure on attempt 1 of a streaming call is
retried after a 2000 ms backoff and the attempt-2 success is returned. -/
theorem c1_witness :
    azureProviderExecute true retryDemoOp = ⟨.ok 42, [2000], 2⟩ :=
  (c1_retry_streaming_only retryDemoOp).2.1 "timeout" 42 rfl (by decide) rfl

/-- Exhaustive enumeration of the provider-invocation traces
`AIService.execute` can produce. -/
theorem serviceExecute_trace_cases {α : Type} (st : ServiceState) (model : String)
    (oA oN : String → Except String α) :
    (serviceExecute st model oA oN).2 = []
    ∨ (serviceExecute st model oA oN).2 = [(ProviderId.azure, model)]
    ∨ (serviceExecute st model oA oN).2 = [(ProviderId.anthropic, model)]
    ∨ (serviceExecute st model oA oN).2
        = [(ProviderId.azure, model), (ProviderId.anthropic, mapModelToAnthropic model)]
    ∨ (serviceExecute st model oA oN).2
        = [(ProviderId.anthropic, model), (ProviderId.azure, mapModelToAzure model)] := by
  by_cases hI : st.isInit = false
  · left; simp [serviceExecute, hI]
  · have hI' : st.isInit = true := by revert hI; cases st.isInit <;> simp
    cases hap : st.activeProvider with
    | azure =>
      cases hc : azureCall st oA model with
      | ok r => right; left; simp [serviceExecute, hI', hap, hc]
      | error e =>
        by_cases hn : st.anthropicReady = true
        · cases hres : anthropicCall st oN (mapModelToAnthropic model) with
          | ok r =>
            right; right; right; left
            simp [serviceExecute, hI', hap, hc, hn, hres]
          | error e2 =>
            right; right; right; left
            simp [serviceExecute, hI', hap, hc, hn, hres]
        · rw [Bool.not_eq_true] at hn
          right; left; simp [serviceExecute, hI', hap, hc, hn]
    | anthropic =>
      cases hc : anthropicCall st oN model with
      | ok r => right; right; left; simp [serviceExecute, hI', hap, hc]
      | error e =>
        by_cases hn : st.azureReady = true
        · cases hres : azureCall st oA (mapModelToAzure model) with
          | ok r =>
            right; right; right; right
            simp [serviceExecute, hI', hap, hc, hn, hres]
          | error e2 =>
            right; right; right; right
            simp [serviceExecute, hI', hap, hc, hn, hres]
        · rw [Bool.not_eq_true] at hn
          right; right; left; simp [serviceExecute, hI', hap, hc, hn]

/-- C2: when the active provider's call fails and the other provider is
configured, exactly one call is attempted against the secondary provider
with the model id translated via the mapping table; if that secondary
call also fails the original (primary) error is surfaced, and if it
succeeds its result is returned; in every execution at most two provider
identities appear in the invocation trace, each at most once (failover
is one-shot, never retry-then-failover-then-retry). -/
theorem c2_one_shot_failover {α : Type} (st : ServiceState) (model : String)
    (oA oN : String → Except String α) :
    (st.isInit = true → st.activeProvider = .azure → st.anthropicReady = true →
      ∀ e, azureCall st oA model = .error e →
        ((serviceExecute st model oA oN).2
            = [(ProviderId.azure, model), (ProviderId.anthropic, mapModelToAnthropic model)]
          ∧ (∀ e2, anthropicCall st oN (mapModelToAnthropic model) = .error e2 →
              (serviceExecute st model oA oN).1 = .error e)
          ∧ (∀ r, anthropicCall st oN (mapModelToAnthropic model) = .ok r →
              (serviceExecute st model oA oN).1 = .ok r)))
    ∧ (st.isInit = true → st.activeProvider = .anthropic → st.azureReady = true →
      ∀ e, anthropicCall st oN model = .error e →
        ((serviceExecute st model oA oN).2
            = [(ProviderId.anthropic, model), (ProviderId.azure, mapModelToAzure model)]
          ∧ (∀ e2, azureCall st oA (mapModelToAzure model) = .error e2 →
              (serviceExecute st model oA oN).1 = .error e)
          ∧ (∀ r, azureCall st oA (mapModelToAzure model) = .ok r →
              (serviceExecute st model oA oN).1 = .ok r)))
    ∧ ((serviceExecute st model oA oN).2.length ≤ 2
        ∧ ((serviceExecute st model oA oN).2.map Prod.fst).Nodup) := by
  refine ⟨?_, ?_, ?_⟩
  · intro hI hap hn e hc
    refine ⟨?_, ?_, ?_⟩
    · cases hres : anthropicCall st oN (mapModelToAnthropic model) with
      | ok r => simp [serviceExecute, hI, hap, hc, hn, hres]
      | error e2 => simp [serviceExecute, hI, hap, hc, hn, hres]
    · intro e2 hres; simp [serviceExecute, hI, hap, hc, hn, hres]
    · intro r hres; simp [serviceExecute, hI, hap, hc, hn, hres]
  · intro hI hap hn e hc
    refine ⟨?_, ?_, ?_⟩
    · cases hres : azureCall st oA (mapModelToAzure model) with
      | ok r => simp [serviceExecute, hI, hap, hc, hn, hres]
      | error e2 => simp [serviceExecute, hI, hap, hc, hn, hres]
    · intro e2 hres; simp [serviceExecute, hI, hap, hc, hn, hres]
    · intro r hres; simp [serviceExecute, hI, hap, hc, hn, hres]
  · rcases serviceExecute_trace_cases st model oA oN with h | h | h | h | h <;>
      rw [h] <;> exact ⟨by simp, by simp⟩

/-- C2 witness: with azure active and failing and anthropic configured,
the failover call uses the translated sonnet id and its success is
returned to the caller. -/
theorem c2_witness :
    (serviceExecute ⟨true, .azure, true, true⟩ "claude-3-5-sonnet-20241022"
        failingOracle okOracle).2
      = [(ProviderId.azure, "claude-3-5-sonnet-20241022"),
         (ProviderId.anthropic, "claude-sonnet-4-5-20250929")]
      ∧ (serviceExecute ⟨true, .azure, true, true⟩ "claude-3-5-sonnet-20241022"
          failingOracle okOracle).1 = .ok 7 := by
  have h := c2_one_shot_failover (α := Nat) ⟨true, .azure, true, true⟩
    "claude-3-5-sonnet-20241022" failingOracle okOracle
  have h1 := h.1 rfl rfl rfl "boom" rfl
  exact ⟨h1.1, h1.2.2 7 rfl⟩

/-- C9 counterexample: with an azure-primary configuration whose azure
credentials are incomplete (empty endpoint) and no fallback,
`AIService.initialize` completes without error (`isInitialized = true`),
and the configuration problem first surfaces as a provider-not-
initialized failure on a later `execute` call — contradicting the claim
that initialization fails fast before any Journey starts. -/
theorem c9_counterexample :
    serviceInit cfgBadAzure = .ok ⟨true, .azure, false, false⟩
      ∧ (serviceExecute ⟨true, .azure, false, false⟩ "claude-3-5-sonnet-20241022"
          okOracle okOracle).1 = .error "Azure AI provider not initialized" :=
  ⟨rfl, rfl⟩

/-- C9 amended: `AzureAIProvider.initialize` itself does fail fast —
a missing (empty) endpoint or API key raises at initialization time —
but `AIService.initialize` never raises: it succeeds on every
configuration, leaving an incompletely configured provider unready, and
the missing configuration then surfaces as a not-initialized error on
the first `execute` call against that provider. -/
theorem c9_config_error_surfacing :
    (∀ cfg : AzureAIConfig, cfg.endpoint = "" ∨ cfg.apiKey = "" →
        azureProviderInit cfg = .error "Azure AI endpoint and API key are required")
    ∧ (∀ cfg : AIConfig, ∃ st, serviceInit cfg = .ok st ∧ st.isInit = true)
    ∧ (∀ (α : Type) (st : ServiceState) (model : String)
        (oA oN : String → Except String α),
        st.isInit = true → st.activeProvider = .azure → st.azureReady = false →
        st.anthropicReady = false →
        (serviceExecute st model oA oN).1 = .error "Azure AI provider not initialized") := by
  refine ⟨?_, ?_, ?_⟩
  · intro cfg h
    unfold azureProviderInit
    rw [if_pos h]
  · intro cfg
    exact ⟨_, rfl, rfl⟩
  · intro α st model oA oN hI hap haz han
    simp [serviceExecute, hI, hap, azureCall, haz, han]

/-- C9 witness: the provider-level fail-fast at an empty endpoint, and
the service-level deferred surfacing at a concrete unready state. -/
theorem c9_witness :
    azureProviderInit ⟨"", "key", none⟩
        = .error "Azure AI endpoint and API key are required"
      ∧ (serviceExecute ⟨true, .azure, false, false⟩ "m" okOracle okOracle).1
          = .error "Azure AI provider not initialized" :=
  ⟨c9_config_error_surfacing.1 ⟨"", "key", none⟩ (Or.inl rfl),
   c9_config_error_surfacing.2.2 Nat ⟨true, .azure, false, false⟩ "m"
     okOracle okOracle rfl rfl rfl rfl⟩

/-- C6 counterexample: an HTTP 200 response whose JSON body parses but
carries none of the required completion fields raises no error — the
call returns successfully with empty content — contradicting the claim
that a completion body missing required fields raises a
malformed-response error and that empty content arises only from a
genuinely empty completion. -/
theorem c6_counterexample :
    executeNonStreaming 0 "m" okMalformedResp = .ok (parseResponse 0 rawEmptyResponse "m")
      ∧ (parseResponse 0 rawEmptyResponse "m").content = ""
      ∧ (parseResponse 0 rawEmptyResponse "m").toolUses = none :=
  ⟨rfl, rfl, rfl⟩

/-- C6 amended: a non-OK HTTP response raises an error carrying the HTTP
status code in its message; an unparseable (invalid JSON) body raises an
error that is surfaced immediately and is not classified as retryable;
but a parseable body missing required fields does NOT raise — the
content defaults to the empty string (so empty content can also come
from a missing-field response); when a content field is present it is
returned as-is. -/
theorem c6_malformed_response_handling :
    (∀ (now : Nat) (model : String) (resp : HttpResp), resp.ok = false →
        executeNonStreaming now model resp
          = .error ("Azure AI error: " ++ toString resp.status ++ " - " ++ resp.bodyText))
    ∧ (∀ (now : Nat) (model : String) (resp : HttpResp),
        resp.ok = true → resp.jsonBody = none →
        executeNonStreaming now model resp = .error "Unexpected end of JSON input")
    ∧ isRetryableError "Unexpected end of JSON input" = false
    ∧ (∀ (now : Nat) (model : String) (d : RawResponse), d.choices = [] →
        (parseResponse now d model).content = ""
          ∧ executeNonStreaming now model ⟨true, 200, "", some d⟩
              = .ok (parseResponse now d model))
    ∧ (∀ (now : Nat) (model c : String) (d : RawResponse)
        (tc : Option (List RawToolCall)),
        d.choices = [⟨some ⟨some c, tc⟩⟩] → (parseResponse now d model).content = c) := by
  refine ⟨?_, ?_, by decide, ?_, ?_⟩
  · intro now model resp h
    simp [executeNonStreaming, h]
  · intro now model resp h1 h2
    simp [executeNonStreaming, h1, h2]
  · intro now model d h
    exact ⟨by simp [parseResponse, h], by simp [executeNonStreaming]⟩
  · intro now model c d tc h
    simp [parseResponse, h]

/-- C6 witness: a concrete HTTP 503 failure surfaces as an error whose
message carries the status code. -/
theorem c6_witness :
    executeNonStreaming 0 "m" ⟨false, 503, "busy", none⟩
      = .error "Azure AI error: 503 - busy" :=
  c6_malformed_response_handling.1 0 "m" ⟨false, 503, "busy", none⟩ rfl
